import Mathlib

/-!
Verification of `undetected_geckodriver` against its specification.

This file shallowly embeds the core operations of the repository:

* the binary patcher of `undetected_geckodriver/driver.py`
  (`Firefox._patch_libxul_file`, byte-search-and-replace of the marker
  `b"webdriver"`), together with `utils.generate_random_string`;
* the sweep operations of `undetected_geckodriver/firefox_manager.py`
  (`FirefoxManager._cleanup_old_directories`, `_deep_clean_directory`);
* the installation locator (`FirefoxManager.find_firefox_path`);
* the instance copier (`FirefoxManager.create_firefox_copy`), profile
  allocator (`create_profile_path`) and lock registry (`update_lock_file`)
  over a small explicit filesystem state;
* the patch-target location step of `_patch_libxul_file`.

Byte strings are `List Nat`; directory and file names are `List Char`;
wall-clock timestamps are modelled as integer seconds.
-/

namespace UGeck

/-! ## Binary patcher (`driver.py:_patch_libxul_file`, `utils.py:generate_random_string`) -/

/-- The fixed marker `TO_REPLACE_STRING = b"webdriver"` from `constants.py`,
as its nine ASCII byte values (`w e b d r i v e r`). -/
def markerBytes : List Nat := [119, 101, 98, 100, 114, 105, 118, 101, 114]

/-- A byte is alphanumeric ASCII: exactly the byte values producible by
`random.choice(string.ascii_letters + string.digits)` in
`generate_random_string`. -/
def isAlphanumByte (b : Nat) : Bool :=
  (48 ≤ b && b ≤ 57) || (65 ≤ b && b ≤ 90) || (97 ≤ b && b ≤ 122)

/-- A possible value of `generate_random_string(len).encode()`: any list of
alphanumeric bytes of that length (the source draws each character
uniformly and independently, so every such string is a possible draw). -/
def genPossible (len : Nat) (r : List Nat) : Prop :=
  r.length = len ∧ r.all isAlphanumByte = true

/-- Worker for `replaceAll`, structurally recursive on a fuel argument so
that the kernel can evaluate it; the fuel is always instantiated with the
length of the data, which bounds the number of recursion steps. -/
def replaceAllGo (r : List Nat) : Nat → List Nat → List Nat
  | _, [] => []
  | 0, data => data
  | fuel + 1, b :: rest =>
    if markerBytes.isPrefixOf (b :: rest) then r ++ replaceAllGo r fuel (rest.drop 8)
    else b :: replaceAllGo r fuel rest

/-- Python `libxul_data.replace(TO_REPLACE_STRING, random_bytes)` from
`driver.py`: greedy left-to-right replacement of every non-overlapping
occurrence of `markerBytes` by `r`. -/
def replaceAll (r data : List Nat) : List Nat := replaceAllGo r data.length data

/-- Python `pat in data` for byte strings: `pat` occurs as a contiguous
substring of `data`. -/
def containsSub (pat : List Nat) : List Nat → Bool
  | [] => pat.isEmpty
  | b :: rest => pat.isPrefixOf (b :: rest) || containsSub pat rest

/-- The content transformation of `_patch_libxul_file` on the bytes of the
target file: if the marker is absent the method returns early without
writing, so the file stays byte-identical; otherwise every occurrence is
replaced by the single freshly generated string `r` and the result is
written back in place. -/
def patchContent (r data : List Nat) : List Nat :=
  if containsSub markerBytes data then replaceAll r data else data

/-! ### Patcher lemmas -/

theorem pfx_len (p l : List Nat) (h : p.isPrefixOf l = true) : p.length ≤ l.length := by
  induction p generalizing l with
  | nil => simp
  | cons a as ih =>
    cases l with
    | nil => simp [List.isPrefixOf] at h
    | cons b bs =>
      simp only [List.isPrefixOf, Bool.and_eq_true, beq_iff_eq] at h
      simpa using ih bs h.2

theorem go_length (r : List Nat) (hr : r.length = 9) :
    ∀ fuel data, data.length ≤ fuel → (replaceAllGo r fuel data).length = data.length := by
  intro fuel
  induction fuel with
  | zero =>
    intro data h
    have : data = [] := List.eq_nil_of_length_eq_zero (Nat.le_zero.mp h)
    subst this
    simp [replaceAllGo]
  | succ n ih =>
    intro data h
    cases data with
    | nil => simp [replaceAllGo]
    | cons b rest =>
      simp only [List.length_cons, Nat.succ_le_succ_iff] at h
      by_cases hp : markerBytes.isPrefixOf (b :: rest) = true
      · have hlen : (9 : Nat) ≤ rest.length + 1 := by
          have := pfx_len markerBytes (b :: rest) hp
          simpa [markerBytes] using this
        have hdrop : (rest.drop 8).length ≤ n := by
          simp only [List.length_drop]; omega
        simp only [replaceAllGo, if_pos hp, List.length_append, hr, ih _ hdrop,
          List.length_drop, List.length_cons]
        omega
      · simp only [replaceAllGo, if_neg hp, List.length_cons, ih rest h]

theorem go_id (r : List Nat) :
    ∀ fuel data, containsSub markerBytes data = false → replaceAllGo r fuel data = data := by
  intro fuel
  induction fuel with
  | zero => intro data _; cases data <;> simp [replaceAllGo]
  | succ n ih =>
    intro data h
    cases data with
    | nil => simp [replaceAllGo]
    | cons b rest =>
      simp only [containsSub, Bool.or_eq_false_iff] at h
      rw [replaceAllGo, if_neg]
      · rw [ih rest h.2]
      · simp [h.1]

/-- A nonempty block of marker bytes that starts the patched output also
starts the input: replacement blocks cannot begin such a block because
their bytes avoid the marker's bytes, and copied bytes come from positions
where the scanner found no match. -/
theorem go_pull (r : List Nat) (hrd : ∀ x ∈ r, x ∉ markerBytes) (hr : r.length = 9) :
    ∀ fuel data m, data.length ≤ fuel → m ≠ [] → (∀ x ∈ m, x ∈ markerBytes) →
      m.isPrefixOf (replaceAllGo r fuel data) = true → m.isPrefixOf data = true := by
  intro fuel
  induction fuel with
  | zero =>
    intro data m h hm _ hpre
    have : data = [] := List.eq_nil_of_length_eq_zero (Nat.le_zero.mp h)
    subst this
    simp only [replaceAllGo] at hpre
    cases m with
    | nil => exact absurd rfl hm
    | cons a as => simp [List.isPrefixOf] at hpre
  | succ n ih =>
    intro data m h hm hmem hpre
    cases data with
    | nil =>
      simp only [replaceAllGo] at hpre
      cases m with
      | nil => exact absurd rfl hm
      | cons a as => simp [List.isPrefixOf] at hpre
    | cons b rest =>
      simp only [List.length_cons, Nat.succ_le_succ_iff] at h
      by_cases hp : markerBytes.isPrefixOf (b :: rest) = true
      · exfalso
        simp only [replaceAllGo, if_pos hp] at hpre
        cases m with
        | nil => exact hm rfl
        | cons a as =>
          cases hrcons : r with
          | nil => rw [hrcons] at hr; simp at hr
          | cons y ys =>
            rw [hrcons] at hpre
            simp only [List.cons_append, List.isPrefixOf, Bool.and_eq_true,
              beq_iff_eq] at hpre
            have hy : y ∉ markerBytes := hrd y (by rw [hrcons]; exact List.mem_cons_self y ys)
            exact hy (hpre.1 ▸ hmem a (List.mem_cons_self a as))
      · simp only [replaceAllGo, if_neg hp] at hpre
        cases m with
        | nil => exact absurd rfl hm
        | cons a as =>
          simp only [List.isPrefixOf, Bool.and_eq_true, beq_iff_eq] at hpre ⊢
          refine ⟨hpre.1, ?_⟩
          cases has : as with
          | nil => simp
          | cons a2 as2 =>
            have := ih rest as h (by simp [has]) (fun x hx => hmem x (List.mem_cons_of_mem a hx)) (has ▸ hpre.2)
            exact has ▸ this

theorem containsSub_append (a t : List Nat) (ha : ∀ x ∈ a, x ≠ 119)
    (ht : containsSub markerBytes t = false) : containsSub markerBytes (a ++ t) = false := by
  induction a with
  | nil => simpa using ht
  | cons x a' ih =>
    simp only [List.cons_append, containsSub, Bool.or_eq_false_iff]
    constructor
    · simp only [markerBytes, List.isPrefixOf, Bool.and_eq_false_iff, beq_iff_eq]
      left
      simp only [beq_eq_false_iff_ne, ne_eq]
      intro hc
      exact ha x (List.mem_cons_self x a') hc.symm
    · exact ih (fun y hy => ha y (List.mem_cons_of_mem x hy))

/-- When the replacement string shares no byte with the marker, the marker
is absent from the replaced output. -/
theorem go_no_marker (r : List Nat) (hrd : ∀ x ∈ r, x ∉ markerBytes) (hr : r.length = 9) :
    ∀ fuel data, data.length ≤ fuel → containsSub markerBytes (replaceAllGo r fuel data) = false := by
  intro fuel
  induction fuel with
  | zero =>
    intro data h
    have : data = [] := List.eq_nil_of_length_eq_zero (Nat.le_zero.mp h)
    subst this
    simp [replaceAllGo, containsSub, markerBytes]
  | succ n ih =>
    intro data h
    cases data with
    | nil => simp [replaceAllGo, containsSub, markerBytes]
    | cons b rest =>
      simp only [List.length_cons, Nat.succ_le_succ_iff] at h
      by_cases hp : markerBytes.isPrefixOf (b :: rest) = true
      · have hlen : (9 : Nat) ≤ rest.length + 1 := by
          have := pfx_len markerBytes (b :: rest) hp
          simpa [markerBytes] using this
        have hdrop : (rest.drop 8).length ≤ n := by
          simp only [List.length_drop]; omega
        simp only [replaceAllGo, if_pos hp]
        refine containsSub_append r _ ?_ (ih _ hdrop)
        intro x hx hc
        exact hrd x hx (by rw [hc]; simp [markerBytes])
      · simp only [replaceAllGo, if_neg hp, containsSub, Bool.or_eq_false_iff]
        refine ⟨?_, ih rest h⟩
        by_contra hcon
        simp only [Bool.not_eq_false] at hcon
        have hb : 119 = b ∧ ([101, 98, 100, 114, 105, 118, 101, 114] : List Nat).isPrefixOf (replaceAllGo r n rest) = true := by
          simpa only [markerBytes, List.isPrefixOf, Bool.and_eq_true, beq_iff_eq] using hcon
        have hpull := go_pull r hrd hr n rest [101, 98, 100, 114, 105, 118, 101, 114] h
          (by simp) (by intro x hx; simp [markerBytes]; simp at hx; omega) hb.2
        apply hp
        simp only [markerBytes, List.isPrefixOf, Bool.and_eq_true, beq_iff_eq]
        exact ⟨hb.1, by simpa [List.isPrefixOf] using hpull⟩

theorem replaceAll_length (r : List Nat) (hr : r.length = 9) (data : List Nat) :
    (replaceAll r data).length = data.length :=
  go_length r hr data.length data (Nat.le_refl _)

/-! ### C1: patcher claim -/

/-- C1 (counterexample): the claim "the marker is absent from the patched
output" fails as a universal statement. `generate_random_string(9)` can
return the string `"webdriver"` itself — it is alphanumeric and of the
marker's length — and patching a file that consists of exactly the marker
with that replacement leaves the marker present in the output. -/
theorem c1_patcher_counterexample :
    genPossible markerBytes.length markerBytes
    ∧ containsSub markerBytes markerBytes = true
    ∧ containsSub markerBytes (patchContent markerBytes markerBytes) = true :=
  ⟨⟨rfl, by decide⟩, by decide, by decide⟩

/-- C1 (amended): for every byte string read from the target file and every
replacement string of the marker's byte length: the patched output has
exactly the same total length; if the marker does not occur the patch
returns successfully with the content byte-identical; and the marker is
absent from the output whenever the freshly generated string shares no
byte with the marker (absence can fail only in the degenerate cases where
the generated string reuses marker bytes, e.g. equals the marker). -/
theorem c1_patcher_amended (r data : List Nat) (hr : r.length = markerBytes.length) :
    (patchContent r data).length = data.length
    ∧ (containsSub markerBytes data = false → patchContent r data = data)
    ∧ ((∀ x ∈ r, x ∉ markerBytes) → containsSub markerBytes (patchContent r data) = false) := by
  have hr9 : r.length = 9 := by simpa [markerBytes] using hr
  refine ⟨?_, ?_, ?_⟩
  · by_cases h : containsSub markerBytes data = true
    · simp only [patchContent, if_pos h]
      exact replaceAll_length r hr9 data
    · simp [patchContent, h]
  · intro h
    simp [patchContent, h]
  · intro hrd
    by_cases h : containsSub markerBytes data = true
    · simp only [patchContent, if_pos h]
      rw [replaceAll]
      exact go_no_marker r hrd hr9 data.length data (Nat.le_refl _)
    · simp only [Bool.not_eq_true] at h
      simp [patchContent, h]

/-- C1 (witness): the amended theorem applied at the file content
`b"webdriver"` and the replacement string `"ABCDEFGHJ"`, whose bytes avoid
the marker's bytes. -/
theorem c1_patcher_witness :
    (patchContent [65, 66, 67, 68, 69, 70, 71, 72, 74] markerBytes).length = markerBytes.length
    ∧ containsSub markerBytes (patchContent [65, 66, 67, 68, 69, 70, 71, 72, 74] markerBytes) = false :=
  ⟨(c1_patcher_amended [65, 66, 67, 68, 69, 70, 71, 72, 74] markerBytes (by decide)).1,
   (c1_patcher_amended [65, 66, 67, 68, 69, 70, 71, 72, 74] markerBytes (by decide)).2.2 (by decide)⟩

/-! ## Reaper sweeps (`firefox_manager.py:_cleanup_old_directories`, `_deep_clean_directory`)

A managed root is a list of directory entries.  For each entry the sweeps
look only at its name and at the outcome of reading and JSON-parsing its
`ugff.lock` marker file, so an entry is modelled by its name together with
that outcome.  Timestamps are integer seconds; `CLEANUP_THRESHOLD_MINUTES
= 20` from `constants.py`. -/

/-- Outcome of reading `<dir>/ugff.lock` and parsing it as JSON, as
distinguished by both sweep methods: the file may be missing, unreadable
or corrupt (`json.load` fails), readable JSON without a `"timestamp"`
field, or JSON carrying a numeric timestamp. -/
inductive LockParse where
  | missing
  | invalidJson
  | noTimestampField
  | timestamp (t : Int)
deriving DecidableEq

/-- One subdirectory of a managed root, as seen by the sweeps. -/
structure Entry where
  name : List Char
  lock : LockParse
deriving DecidableEq

/-- Boolean `startswith` on names. -/
def pfxOf : List Char → List Char → Bool
  | [], _ => true
  | _ :: _, [] => false
  | a :: as, b :: bs => if a = b then pfxOf as bs else false

def CLEANUP_THRESHOLD_MINUTES : Int := 20

def TEMP_DIR_PFX : List Char := ['u', 'g', 'f', 'f', '_']

def PROFILE_DIR_PFX : List Char :=
  ['u', 'g', 'f', 'f', '_', 'p', 'r', 'o', 'f', 'i', 'l', 'e', '_']

/-- Whether `_cleanup_old_directories(base_dir, prefix)` removes an entry:
non-prefixed names are skipped; a missing lock file is skipped; a corrupt
lock file raises inside the inner `try` and is skipped; `data.get
("timestamp")` falsy — absent field or the value `0` — is skipped; only a
truthy timestamp strictly older than `now - 20 minutes` is removed. -/
def cleanupRemoves (now : Int) (pfx : List Char) (e : Entry) : Bool :=
  pfxOf pfx e.name &&
    match e.lock with
    | .timestamp t => decide (t ≠ 0) && decide (t < now - CLEANUP_THRESHOLD_MINUTES * 60)
    | _ => false

/-- Whether `_deep_clean_directory(base_dir, prefix)` removes an entry:
non-prefixed names are skipped; a missing lock file, corrupt JSON, or JSON
without a `"timestamp"` key is removed; any entry whose lock parses with a
`"timestamp"` key is kept (no staleness check in this method). -/
def deepCleanRemoves (pfx : List Char) (e : Entry) : Bool :=
  pfxOf pfx e.name &&
    match e.lock with
    | .missing => true
    | .invalidJson => true
    | .noTimestampField => true
    | .timestamp _ => false

/-- The staleness sweep over a managed root: `_cleanup_old_directories`. -/
def cleanupSweep (now : Int) (pfx : List Char) (entries : List Entry) : List Entry :=
  entries.filter (fun e => !cleanupRemoves now pfx e)

/-- The deep clean over a managed root: `_deep_clean_directory`. -/
def deepCleanSweep (pfx : List Char) (entries : List Entry) : List Entry :=
  entries.filter (fun e => !deepCleanRemoves pfx e)

/-- The startup purge as run by `Firefox._purge_stale_instances`:
`cleanup_old_copies()` (staleness sweep) followed by `deep_clean()` on the
same roots. -/
def purgeSweep (now : Int) (pfx : List Char) (entries : List Entry) : List Entry :=
  deepCleanSweep pfx (cleanupSweep now pfx entries)

/-! ### C2: reaper safety -/

/-- C2: no sweep operation — neither the staleness sweep
(`_cleanup_old_directories`) nor the deep clean (`_deep_clean_directory`)
— deletes a prefixed managed directory whose lock marker parses as JSON
with a timestamp less than 20 minutes old, and no sweep touches an entry
whose name does not start with the managed prefix, for every state of the
managed root. -/
theorem c2_reaper_safety (now : Int) (pfx : List Char) (entries : List Entry) (e : Entry)
    (he : e ∈ entries)
    (hsafe : pfxOf pfx e.name = false
      ∨ ∃ t, e.lock = .timestamp t ∧ now - t < CLEANUP_THRESHOLD_MINUTES * 60) :
    e ∈ cleanupSweep now pfx entries ∧ e ∈ deepCleanSweep pfx entries := by
  constructor
  · rw [cleanupSweep, List.mem_filter]
    refine ⟨he, ?_⟩
    rcases hsafe with h | ⟨t, hl, ht⟩
    · simp [cleanupRemoves, h]
    · have hlt : ¬ (t < now - CLEANUP_THRESHOLD_MINUTES * 60) := by
        simp only [CLEANUP_THRESHOLD_MINUTES] at ht ⊢
        omega
      simp [cleanupRemoves, hl, hlt]
  · rw [deepCleanSweep, List.mem_filter]
    refine ⟨he, ?_⟩
    rcases hsafe with h | ⟨t, hl, _⟩
    · simp [deepCleanRemoves, h]
    · simp [deepCleanRemoves, hl]

/-- C2 (witness): a prefixed directory whose marker is 1000 seconds old
survives both sweeps. -/
theorem c2_reaper_safety_witness :
    (⟨TEMP_DIR_PFX ++ ['a'], .timestamp 9000⟩ : Entry)
        ∈ cleanupSweep 10000 TEMP_DIR_PFX [⟨TEMP_DIR_PFX ++ ['a'], .timestamp 9000⟩]
    ∧ (⟨TEMP_DIR_PFX ++ ['a'], .timestamp 9000⟩ : Entry)
        ∈ deepCleanSweep TEMP_DIR_PFX [⟨TEMP_DIR_PFX ++ ['a'], .timestamp 9000⟩] :=
  c2_reaper_safety 10000 TEMP_DIR_PFX _ _ (List.mem_singleton.mpr rfl)
    (Or.inr ⟨9000, rfl, by decide⟩)

/-! ### C3: reaper completeness -/

/-- C3 (counterexample): a prefixed managed directory whose marker parses
as JSON with timestamp `0` — far older than `now − 20 minutes` — is
deleted by neither sweep: `_cleanup_old_directories` skips it because
`data.get("timestamp")` is falsy (`if not timestamp`), and
`_deep_clean_directory` keeps it because the `"timestamp"` key is present.
It therefore survives the whole startup purge, refuting the claim that
every prefixed entry with a timestamp older than the threshold is
deleted. -/
theorem c3_reaper_counterexample :
    (0 : Int) < 100000 - CLEANUP_THRESHOLD_MINUTES * 60
    ∧ pfxOf TEMP_DIR_PFX (TEMP_DIR_PFX ++ ['z']) = true
    ∧ (⟨TEMP_DIR_PFX ++ ['z'], .timestamp 0⟩ : Entry)
        ∈ purgeSweep 100000 TEMP_DIR_PFX [⟨TEMP_DIR_PFX ++ ['z'], .timestamp 0⟩] :=
  ⟨by decide, by decide, by decide⟩

/-- C3 (amended): for every prefixed subdirectory of a managed root, the
startup purge (staleness sweep followed by deep clean) deletes its
directory tree exactly when its lock marker is missing, not parseable as
JSON, lacks a timestamp field, or carries a nonzero timestamp older than
`now` minus the 20-minute threshold; a marker whose timestamp field is
exactly `0` is kept (the staleness sweep skips it as falsy, the deep clean
sees the field as present).  In particular a nonzero marker aged 21
minutes is deleted and one aged 19 minutes is kept. -/
theorem c3_reaper_amended (now : Int) (pfx : List Char) (entries : List Entry) (e : Entry)
    (he : e ∈ entries) (hp : pfxOf pfx e.name = true) :
    e ∉ purgeSweep now pfx entries
      ↔ e.lock = .missing ∨ e.lock = .invalidJson ∨ e.lock = .noTimestampField
        ∨ ∃ t, e.lock = .timestamp t ∧ t ≠ 0 ∧ t < now - CLEANUP_THRESHOLD_MINUTES * 60 := by
  have hmem : e ∈ purgeSweep now pfx entries
      ↔ (cleanupRemoves now pfx e = false ∧ deepCleanRemoves pfx e = false) := by
    simp only [purgeSweep, deepCleanSweep, cleanupSweep, List.mem_filter,
      Bool.not_eq_true', he, true_and]
  rw [hmem]
  rcases hlock : e.lock with _ | _ | _ | t
  · simp [cleanupRemoves, deepCleanRemoves, hlock, hp]
  · simp [cleanupRemoves, deepCleanRemoves, hlock, hp]
  · simp [cleanupRemoves, deepCleanRemoves, hlock, hp]
  · have hclean : cleanupRemoves now pfx e
        = (decide (t ≠ 0) && decide (t < now - CLEANUP_THRESHOLD_MINUTES * 60)) := by
      simp [cleanupRemoves, hlock, hp]
    have hdeep : deepCleanRemoves pfx e = false := by
      simp [deepCleanRemoves, hlock]
    rw [hclean, hdeep]
    constructor
    · intro h
      refine Or.inr (Or.inr (Or.inr ⟨t, rfl, ?_⟩))
      by_contra hc
      apply h
      refine ⟨?_, rfl⟩
      simp only [Bool.and_eq_false_iff, decide_eq_false_iff_not]
      by_cases h0 : t = 0
      · exact Or.inl (by simp [h0])
      · exact Or.inr (fun hlt => hc ⟨h0, hlt⟩)
    · rintro (h | h | h | ⟨t', ht', h0, hlt⟩)
      · simp at h
      · simp at h
      · simp at h
      · injection ht' with hEq
        subst hEq
        intro hcon
        have h1 := hcon.1
        simp only [Bool.and_eq_false_iff, decide_eq_false_iff_not] at h1
        rcases h1 with h' | h'
        · exact absurd h0 h'
        · exact h' hlt

/-- C3 (witness): the amended theorem applied to a prefixed directory whose
nonzero marker is 21 minutes old at `now = 10000`: it is deleted by the
startup purge. -/
theorem c3_reaper_amended_witness :
    (⟨TEMP_DIR_PFX ++ ['c'], .timestamp 8740⟩ : Entry)
      ∉ purgeSweep 10000 TEMP_DIR_PFX [⟨TEMP_DIR_PFX ++ ['c'], .timestamp 8740⟩] :=
  (c3_reaper_amended 10000 TEMP_DIR_PFX _ _ (List.mem_singleton.mpr rfl) (by decide)).mpr
    (Or.inr (Or.inr (Or.inr ⟨8740, rfl, by decide, by decide⟩)))

/-! ## Installation locator (`firefox_manager.py:find_firefox_path`)

The locator touches the filesystem only through `os.path.exists`, modelled
by a predicate `fs` on paths.  Python truthiness of a path string (`if
custom_path and ...`, `if path and ...`) is the nonemptiness check. -/

abbrev FPath := List Char

/-- Python truthiness of a path string: nonempty. -/
def truthyPath (p : FPath) : Bool := !p.isEmpty

/-- The `for path in lookup_paths` loop: the first truthy, existing path. -/
def firstHit (fs : FPath → Bool) : List FPath → Option FPath
  | [] => none
  | p :: rest => if truthyPath p && fs p then some p else firstHit fs rest

/-- The `checked_paths` list built before raising
`FirefoxNotFoundException`: the custom path if truthy, then every truthy
lookup path. -/
def checkedPaths (custom : Option FPath) (lookup : List FPath) : List FPath :=
  (match custom with
   | some c => if truthyPath c then [c] else []
   | none => []) ++ lookup.filter truthyPath

/-- `FirefoxManager.find_firefox_path(custom_path, lookup_paths)`: returns
the custom path when it is truthy and exists, else the first truthy
existing lookup path, else raises `FirefoxNotFoundException` carrying the
checked paths (modelled as `Except.error`). -/
def find_firefox_path (fs : FPath → Bool) (custom : Option FPath) (lookup : List FPath) :
    Except (List FPath) FPath :=
  match custom with
  | some c =>
    if truthyPath c && fs c then Except.ok c
    else
      match firstHit fs lookup with
      | some p => Except.ok p
      | none => Except.error (checkedPaths (some c) lookup)
  | none =>
    match firstHit fs lookup with
    | some p => Except.ok p
    | none => Except.error (checkedPaths none lookup)

theorem firstHit_all_false (fs : FPath → Bool) (l : List FPath)
    (h : ∀ p ∈ l, fs p = false) : firstHit fs l = none := by
  induction l with
  | nil => rfl
  | cons p rest ih =>
    rw [firstHit, if_neg]
    · exact ih (fun q hq => h q (List.mem_cons_of_mem p hq))
    · simp [h p (List.mem_cons_self p rest)]

theorem firstHit_split (fs : FPath → Bool) (pre : List FPath) (p : FPath) (post : List FPath)
    (hpre : ∀ q ∈ pre, fs q = false) (hp1 : fs p = true) (hp0 : p ≠ []) :
    firstHit fs (pre ++ p :: post) = some p := by
  induction pre with
  | nil =>
    rw [List.nil_append, firstHit, if_pos]
    simp [truthyPath, hp1, hp0]
  | cons q pre' ih =>
    rw [List.cons_append, firstHit, if_neg]
    · exact ih (fun q' hq' => hpre q' (List.mem_cons_of_mem q hq'))
    · simp [hpre q (List.mem_cons_self q pre')]

/-! ### C4: locator precedence -/

/-- C4: for every filesystem in which the empty path does not exist (as
`os.path.exists("")` is always false): a supplied custom path that exists
is returned verbatim, for any candidate list; when no custom path is given
or the custom path does not exist, the first existing candidate in list
order is returned; and when the custom path does not exist and no
candidate exists, `FirefoxNotFoundException` is raised carrying every
checked path — the custom path and every truthy candidate among them. -/
theorem c4_locator_precedence (fs : FPath → Bool) (custom : Option FPath) (lookup : List FPath)
    (hwf : fs [] = false) :
    (∀ c, custom = some c → fs c = true → find_firefox_path fs custom lookup = .ok c)
    ∧ (∀ pre p post, lookup = pre ++ p :: post → (∀ q ∈ pre, fs q = false) → fs p = true →
        (custom = none ∨ ∃ c, custom = some c ∧ fs c = false) →
        find_firefox_path fs custom lookup = .ok p)
    ∧ ((∀ q ∈ lookup, fs q = false) → (∀ c, custom = some c → fs c = false) →
        find_firefox_path fs custom lookup = .error (checkedPaths custom lookup)
        ∧ (∀ c, custom = some c → c ≠ [] → c ∈ checkedPaths custom lookup)
        ∧ (∀ q ∈ lookup, q ≠ [] → q ∈ checkedPaths custom lookup)) := by
  refine ⟨?_, ?_, ?_⟩
  · intro c hc hfs
    subst hc
    have hc0 : c ≠ [] := by
      intro h
      rw [h, hwf] at hfs
      exact Bool.false_ne_true hfs
    rw [find_firefox_path, if_pos]
    simp [truthyPath, hfs, hc0]
  · intro pre p post hl hpre hp hcust
    have hp0 : p ≠ [] := by
      intro h
      rw [h, hwf] at hp
      exact Bool.false_ne_true hp
    have hfh : firstHit fs lookup = some p := by
      rw [hl]
      exact firstHit_split fs pre p post hpre hp hp0
    rcases hcust with h | ⟨c, hc, hcfs⟩
    · subst h
      rw [find_firefox_path, hfh]
    · subst hc
      rw [find_firefox_path, if_neg, hfh]
      simp [hcfs]
  · intro hlk hcust
    have hfh : firstHit fs lookup = none := firstHit_all_false fs lookup hlk
    refine ⟨?_, ?_, ?_⟩
    · cases custom with
      | none => rw [find_firefox_path, hfh]
      | some c =>
        rw [find_firefox_path, if_neg, hfh]
        simp [hcust c rfl]
    · intro c hc hc0
      subst hc
      simp [checkedPaths, truthyPath, hc0]
    · intro q hq hq0
      unfold checkedPaths
      refine List.mem_append_right _ ?_
      rw [List.mem_filter]
      exact ⟨hq, by simp [truthyPath, hq0]⟩

/-- C4 (witness): with one existing path `"a"` supplied as the override,
the locator returns it; and with no override and no existing candidate it
raises naming the checked paths. -/
theorem c4_locator_precedence_witness :
    find_firefox_path (fun p : FPath => decide (p = ['a'])) (some ['a']) [['z']] = .ok ['a']
    ∧ find_firefox_path (fun p : FPath => decide (p = ['a'])) none [['z']]
        = .error (checkedPaths none [['z']]) :=
  ⟨(c4_locator_precedence (fun p : FPath => decide (p = ['a'])) (some ['a']) [['z']]
      (by decide)).1 ['a'] rfl (by decide),
   ((c4_locator_precedence (fun p : FPath => decide (p = ['a'])) none [['z']]
      (by decide)).2.2 (by decide) (fun c hc => by cases hc)).1⟩

/-! ### C5: override-path validation -/

/-- C5 (counterexample): a supplied override `"x"` that does not exist does
NOT raise any error: the locator silently falls through and returns the
existing candidate `"c"`.  (The codebase has no configuration-error
exception distinct from `FirefoxNotFoundException` at all.) -/
theorem c5_override_counterexample :
    (fun p : FPath => decide (p = ['c'])) ['x'] = false
    ∧ find_firefox_path (fun p : FPath => decide (p = ['c'])) (some ['x']) [['c']]
        = .ok ['c'] :=
  ⟨by decide, by rfl⟩

/-- C5 (amended): when a nonempty custom override path is supplied and does
not exist, the locator silently falls through to the candidate search —
its result is exactly that of the candidate scan — and no distinguishable
configuration error is raised; only if no candidate exists either does the
generic `FirefoxNotFoundException` fire, naming the override among the
checked paths. -/
theorem c5_override_fallthrough (fs : FPath → Bool) (c : FPath) (lookup : List FPath)
    (hc : c ≠ []) (hfs : fs c = false) :
    find_firefox_path fs (some c) lookup
      = (match firstHit fs lookup with
         | some p => Except.ok p
         | none => Except.error (checkedPaths (some c) lookup))
    ∧ c ∈ checkedPaths (some c) lookup := by
  constructor
  · rw [find_firefox_path, if_neg]
    simp [hfs]
  · simp [checkedPaths, truthyPath, hc]

/-- C5 (witness): the amended theorem at override `"x"` (nonexistent) and
candidate list `["y"]` (existing). -/
theorem c5_override_fallthrough_witness :
    find_firefox_path (fun p : FPath => decide (p = ['y'])) (some ['x']) [['y']]
      = (match firstHit (fun p : FPath => decide (p = ['y'])) [['y']] with
         | some p => Except.ok p
         | none => Except.error (checkedPaths (some ['x']) [['y']]))
    ∧ ['x'] ∈ checkedPaths (some ['x']) [['y']] :=
  c5_override_fallthrough (fun p : FPath => decide (p = ['y'])) ['x'] [['y']]
    (by decide) (by decide)

/-! ## Copier, profile allocator and lock registry
(`firefox_manager.py:create_firefox_copy`, `create_profile_path`,
`update_lock_file`)

These methods are modelled over an explicit filesystem state: an
association list from directory paths (lists of name segments) to
directory nodes.  A node records an opaque payload (the recursively copied
tree, which these methods never inspect) and the content of its
`ugff.lock` marker file, when present, as the pair written by
`json.dump({"timestamp": ..., "id": ...})`.  Failure modes that depend on
the host (unwritable directories, `os.makedirs` errors) are supplied as
oracles. -/

abbrev Seg := List Char

abbrev DirPath := List Seg

/-- Directory state: the copied tree (opaque) and its lock marker. -/
structure Node where
  payload : Nat
  lock : Option (Int × Seg)
deriving DecidableEq

abbrev FSState := List (DirPath × Node)

def fsLookup : FSState → DirPath → Option Node
  | [], _ => none
  | (q, n) :: rest, p => if q = p then some n else fsLookup rest p

def fsWrite (σ : FSState) (p : DirPath) (n : Node) : FSState := (p, n) :: σ

/-- `TEMP_DIR_PREFIX = "ugff_"` as a name segment. -/
def tempPfxSeg : Seg := ['u', 'g', 'f', 'f', '_']

/-- `PROFILE_DIR_PREFIX = "ugff_profile_"` as a name segment. -/
def profilePfxSeg : Seg := ['u', 'g', 'f', 'f', '_', 'p', 'r', 'o', 'f', 'i', 'l', 'e', '_']

/-- `FirefoxManager.update_lock_file(directory_path)`: serialises
`{"timestamp": now, "id": instance_id}` into `<dir>/ugff.lock`.  The write
is wrapped in `try/except`, so any failure — the directory missing, or
unwritable per the `writable` oracle — is swallowed and the state is left
unchanged; the method never raises. -/
def update_lock_file (σ : FSState) (writable : DirPath → Bool) (dir : DirPath)
    (id : Seg) (now : Int) : FSState :=
  match fsLookup σ dir with
  | none => σ
  | some nd => if writable dir then fsWrite σ dir { nd with lock := some (now, id) } else σ

/-- `FirefoxManager.create_firefox_copy(firefox_path)`: the target is
`temp_dir/(TEMP_DIR_PREFIX + instance_id)`. If the target already exists
it is returned unchanged (no copy, no lock write). Otherwise
`shutil.copytree` duplicates the source (failing with
`FirefoxCopyException`, modelled as `Except.error`, when the source is
unreadable), and the initial lock marker is written. The returned Boolean
records whether a copy was performed. -/
def create_firefox_copy (σ : FSState) (writable : DirPath → Bool) (tempRoot : DirPath)
    (src : DirPath) (id : Seg) (now : Int) : Except Unit (DirPath × FSState × Bool) :=
  let target : DirPath := tempRoot ++ [tempPfxSeg ++ id]
  match fsLookup σ target with
  | some _ => .ok (target, σ, false)
  | none =>
    match fsLookup σ src with
    | none => .error ()
    | some nd =>
      let σ₁ := fsWrite σ target nd
      .ok (target, update_lock_file σ₁ writable target id now, true)

/-- `FirefoxManager.create_profile_path()`: the profile directory is
`profiles_dir/(PROFILE_DIR_PREFIX + instance_id)`. It is created if
absent (`os.makedirs`, whose possible failure is the `mkdirOk` oracle), a
lock marker is written, and the path returned; any failure inside the
`try` block is caught and `None` is returned instead of raising. -/
def create_profile_path (σ : FSState) (writable : DirPath → Bool) (mkdirOk : Bool)
    (profRoot : DirPath) (id : Seg) (now : Int) : Option DirPath × FSState :=
  let pdir : DirPath := profRoot ++ [profilePfxSeg ++ id]
  match fsLookup σ pdir with
  | some _ => (some pdir, update_lock_file σ writable pdir id now)
  | none =>
    if mkdirOk then
      (some pdir, update_lock_file (fsWrite σ pdir ⟨0, none⟩) writable pdir id now)
    else (none, σ)

theorem fsLookup_write (σ : FSState) (p : DirPath) (n : Node) :
    fsLookup (fsWrite σ p n) p = some n := by
  simp [fsWrite, fsLookup]

/-! ### C6: copier idempotence -/

/-- C6: if the working directory `tempRoot/("ugff_" + instanceId)` already
exists, `create_firefox_copy` returns that path with the filesystem state
untouched and no copy performed; hence calling it twice with the same
instance id and source performs exactly one copy, returns the same
directory both times, and the second call leaves the state (so the
directory contents) identical and performs no copy I/O. -/
theorem c6_copier_idempotent (σ : FSState) (writable : DirPath → Bool) (tempRoot src : DirPath)
    (id : Seg) (now now' : Int) :
    (∀ nd, fsLookup σ (tempRoot ++ [tempPfxSeg ++ id]) = some nd →
      create_firefox_copy σ writable tempRoot src id now
        = .ok (tempRoot ++ [tempPfxSeg ++ id], σ, false))
    ∧ (fsLookup σ (tempRoot ++ [tempPfxSeg ++ id]) = none → ∀ nd, fsLookup σ src = some nd →
      ∃ σ', create_firefox_copy σ writable tempRoot src id now
              = .ok (tempRoot ++ [tempPfxSeg ++ id], σ', true)
        ∧ create_firefox_copy σ' writable tempRoot src id now'
              = .ok (tempRoot ++ [tempPfxSeg ++ id], σ', false)) := by
  constructor
  · intro nd hnd
    rw [create_firefox_copy]
    rw [hnd]
  · intro htgt nd hsrc
    refine ⟨update_lock_file (fsWrite σ (tempRoot ++ [tempPfxSeg ++ id]) nd) writable
      (tempRoot ++ [tempPfxSeg ++ id]) id now, ?_, ?_⟩
    · rw [create_firefox_copy]
      rw [htgt, hsrc]
    · have hexist : ∃ nd', fsLookup (update_lock_file
          (fsWrite σ (tempRoot ++ [tempPfxSeg ++ id]) nd) writable
          (tempRoot ++ [tempPfxSeg ++ id]) id now) (tempRoot ++ [tempPfxSeg ++ id]) = some nd' := by
        by_cases hw : writable (tempRoot ++ [tempPfxSeg ++ id]) = true
        · exact ⟨{ nd with lock := some (now, id) },
            by simp only [update_lock_file, fsLookup_write, hw, if_true]⟩
        · exact ⟨nd, by simp only [update_lock_file, fsLookup_write, hw,
            Bool.false_eq_true, if_false]⟩
      obtain ⟨nd', hnd'⟩ := hexist
      rw [create_firefox_copy]
      rw [hnd']

/-- C6 (witness): a concrete run — source present, target absent — copied
once; the second call is a no-op returning the same directory. -/
theorem c6_copier_idempotent_witness :
    ∃ σ', create_firefox_copy [([['s']], ⟨7, none⟩)] (fun _ => true) [['t']] [['s']] ['i'] 1
            = .ok ([['t']] ++ [tempPfxSeg ++ ['i']], σ', true)
      ∧ create_firefox_copy σ' (fun _ => true) [['t']] [['s']] ['i'] 2
            = .ok ([['t']] ++ [tempPfxSeg ++ ['i']], σ', false) :=
  (c6_copier_idempotent [([['s']], ⟨7, none⟩)] (fun _ => true) [['t']] [['s']] ['i'] 1 2).2
    (by rfl) ⟨7, none⟩ (by rfl)

/-! ### C8: profile allocation degrades, never fails -/

/-- C8: every failure while creating the per-instance profile directory
makes `create_profile_path` return `None` with the state unchanged rather
than raising (the embedding is total because the source catches every
exception); on success — the directory already exists, or creation
succeeds — it returns `profilesRoot/("ugff_profile_" + instanceId)`. -/
theorem c8_profile_degrade (σ : FSState) (writable : DirPath → Bool) (profRoot : DirPath)
    (id : Seg) (now : Int) :
    (fsLookup σ (profRoot ++ [profilePfxSeg ++ id]) = none →
      create_profile_path σ writable false profRoot id now = (none, σ))
    ∧ (fsLookup σ (profRoot ++ [profilePfxSeg ++ id]) = none →
      (create_profile_path σ writable true profRoot id now).1
        = some (profRoot ++ [profilePfxSeg ++ id]))
    ∧ (∀ nd mkdirOk, fsLookup σ (profRoot ++ [profilePfxSeg ++ id]) = some nd →
      (create_profile_path σ writable mkdirOk profRoot id now).1
        = some (profRoot ++ [profilePfxSeg ++ id])) := by
  refine ⟨?_, ?_, ?_⟩
  · intro h
    rw [create_profile_path]
    rw [h]
    rfl
  · intro h
    rw [create_profile_path]
    rw [h]
    rfl
  · intro nd mkdirOk h
    rw [create_profile_path]
    rw [h]

/-- C8 (witness): with an empty filesystem and `os.makedirs` failing, the
allocator returns `None` and changes nothing; with it succeeding, it
returns the profile path. -/
theorem c8_profile_degrade_witness :
    create_profile_path [] (fun _ => true) false [['p']] ['i'] 5 = (none, [])
    ∧ (create_profile_path [] (fun _ => true) true [['p']] ['i'] 5).1
        = some ([['p']] ++ [profilePfxSeg ++ ['i']]) :=
  ⟨(c8_profile_degrade [] (fun _ => true) [['p']] ['i'] 5).1 (by rfl),
   (c8_profile_degrade [] (fun _ => true) [['p']] ['i'] 5).2.1 (by rfl)⟩

/-! ### C9: lock writes are best-effort -/

/-- C9: `update_lock_file` never raises, for every directory path
including nonexistent or unwritable ones: the embedding is a total
function, each failure branch returning the state unchanged because the
source catches every exception around the write; and on success the
marker holds exactly the current timestamp and this manager's instance
id. -/
theorem c9_lock_best_effort (σ : FSState) (writable : DirPath → Bool) (dir : DirPath)
    (id : Seg) (now : Int) :
    (fsLookup σ dir = none → update_lock_file σ writable dir id now = σ)
    ∧ (writable dir = false → update_lock_file σ writable dir id now = σ)
    ∧ (∀ nd, fsLookup σ dir = some nd → writable dir = true →
      fsLookup (update_lock_file σ writable dir id now) dir
        = some { nd with lock := some (now, id) }) := by
  refine ⟨?_, ?_, ?_⟩
  · intro h
    rw [update_lock_file, h]
  · intro hw
    cases hnd : fsLookup σ dir with
    | none => simp only [update_lock_file, hnd]
    | some nd => simp only [update_lock_file, hnd, hw, Bool.false_eq_true, if_false]
  · intro nd h hw
    simp only [update_lock_file, h, hw, if_true, fsLookup_write]

/-- C9 (witness): a lock refresh on a missing directory is a no-op; on a
present writable directory it stores the timestamp and instance id. -/
theorem c9_lock_best_effort_witness :
    update_lock_file [] (fun _ => true) [['d']] ['i'] 7 = []
    ∧ fsLookup (update_lock_file [([['d']], ⟨3, none⟩)] (fun _ => true) [['d']] ['i'] 7) [['d']]
        = some ⟨3, some (7, ['i'])⟩ :=
  ⟨(c9_lock_best_effort [] (fun _ => true) [['d']] ['i'] 7).1 (by rfl),
   (c9_lock_best_effort [([['d']], ⟨3, none⟩)] (fun _ => true) [['d']] ['i'] 7).2.2
     ⟨3, none⟩ (by rfl) (by rfl)⟩

/-! ### C10: frame of the exists-branch of the copier -/

/-- C10 (implicit): when `create_firefox_copy` finds the working directory
already existing it returns on that branch without writing or refreshing
the lock marker — the state is returned exactly as it was, so the
directory's recorded liveness timestamp and all other contents are
unchanged; the initial marker write happens only on the fresh-copy branch,
immediately after `shutil.copytree`. -/
theorem c10_copy_exists_frame (σ : FSState) (writable : DirPath → Bool) (tempRoot src : DirPath)
    (id : Seg) (now : Int) :
    (∀ nd0, fsLookup σ (tempRoot ++ [tempPfxSeg ++ id]) = some nd0 →
      ∃ σ', create_firefox_copy σ writable tempRoot src id now
              = .ok (tempRoot ++ [tempPfxSeg ++ id], σ', false)
        ∧ σ' = σ ∧ fsLookup σ' (tempRoot ++ [tempPfxSeg ++ id]) = some nd0)
    ∧ (fsLookup σ (tempRoot ++ [tempPfxSeg ++ id]) = none →
      ∀ nd, fsLookup σ src = some nd → writable (tempRoot ++ [tempPfxSeg ++ id]) = true →
      ∃ σ', create_firefox_copy σ writable tempRoot src id now
              = .ok (tempRoot ++ [tempPfxSeg ++ id], σ', true)
        ∧ fsLookup σ' (tempRoot ++ [tempPfxSeg ++ id])
            = some { nd with lock := some (now, id) }) := by
  constructor
  · intro nd0 h
    refine ⟨σ, ?_, rfl, h⟩
    rw [create_firefox_copy, h]
  · intro htgt nd hsrc hw
    refine ⟨update_lock_file (fsWrite σ (tempRoot ++ [tempPfxSeg ++ id]) nd) writable
      (tempRoot ++ [tempPfxSeg ++ id]) id now, ?_, ?_⟩
    · rw [create_firefox_copy, htgt, hsrc]
    · simp only [update_lock_file, fsLookup_write, hw, if_true]

/-- C10 (witness): with the working directory already present holding a
marker written at time 1, a retried call at time 9 returns the same state
with the old marker intact. -/
theorem c10_copy_exists_frame_witness :
    ∃ σ', create_firefox_copy [([['t'], tempPfxSeg ++ ['i']], ⟨4, some (1, ['i'])⟩)]
            (fun _ => true) [['t']] [['s']] ['i'] 9
            = .ok ([['t']] ++ [tempPfxSeg ++ ['i']], σ', false)
      ∧ σ' = [([['t'], tempPfxSeg ++ ['i']], ⟨4, some (1, ['i'])⟩)]
      ∧ fsLookup σ' ([['t']] ++ [tempPfxSeg ++ ['i']]) = some ⟨4, some (1, ['i'])⟩ :=
  (c10_copy_exists_frame [([['t'], tempPfxSeg ++ ['i']], ⟨4, some (1, ['i'])⟩)]
      (fun _ => true) [['t']] [['s']] ['i'] 9).1 ⟨4, some (1, ['i'])⟩ (by rfl)

/-! ## Patch-target location (`driver.py:_patch_libxul_file`, lines 175–189)

The location step consults the filesystem through `os.path.exists` and
`os.walk`.  Both are modelled by one walk tree: the list of directories of
the working copy in `os.walk` order (the working directory itself first),
each with its list of file names.  `os.name == "nt"` is the `isNT` flag. -/

abbrev WalkTree := List (DirPath × List Seg)

/-- `os.path.exists(os.path.join(dir, f))` for a file: some walk entry is
the directory `dir` and lists `f`. -/
def fileInTree (tree : WalkTree) (dir : DirPath) (f : Seg) : Bool :=
  tree.any (fun e => decide (e.1 = dir) && e.2.contains f)

/-- The `for root, dirs, files in os.walk(...)` loop with
`if xul in files: ...; break`: the first walk entry listing the file. -/
def findInWalk (tree : WalkTree) (f : Seg) : Option DirPath :=
  match tree with
  | [] => none
  | (d, files) :: rest => if files.contains f then some (d ++ [f]) else findInWalk rest f

/-- The location step of `_patch_libxul_file`: try the direct child
`undetected_path/xul`; if absent AND `os.name == "nt"`, fall back to the
recursive walk; if the chosen path still does not exist, raise
`FirefoxPatchException` (modelled as `Except.error`). -/
def locateXul (isNT : Bool) (tree : WalkTree) (undet : DirPath) (xul : Seg) :
    Except Unit DirPath :=
  if fileInTree tree undet xul then .ok (undet ++ [xul])
  else if isNT then
    match findInWalk tree xul with
    | some p => .ok p
    | none => .error ()
  else .error ()

/-! ### C7: patch-target location -/

/-- C7 (counterexample): on a non-Windows host (`os.name ≠ "nt"`), a
working copy whose target file `"x"` sits only in the subdirectory
`"u/s"` makes the patcher raise `FirefoxPatchException`, even though the
recursive search would have found the file — the fallback walk is guarded
by `os.name == "nt"`, so the claim's "this holds on every platform" is
false. -/
theorem c7_locate_counterexample :
    findInWalk [([['u']], []), ([['u'], ['s']], [['x']])] ['x'] = some [['u'], ['s'], ['x']]
    ∧ locateXul false [([['u']], []), ([['u'], ['s']], [['x']])] [['u']] ['x'] = .error ()
    ∧ locateXul true [([['u']], []), ([['u'], ['s']], [['x']])] [['u']] ['x']
        = .ok [['u'], ['s'], ['x']] :=
  ⟨by rfl, by rfl, by rfl⟩

/-- C7 (amended): on every platform the patcher first looks for the target
file as a direct child of the working directory; the recursive subtree
search runs only when `os.name == "nt"` (Windows); on other platforms a
missing direct child raises the patch-failure error immediately, even when
the file exists deeper in the tree, and on Windows the error is raised
exactly when the walk also finds nothing. -/
theorem c7_locate_amended (isNT : Bool) (tree : WalkTree) (undet : DirPath) (xul : Seg) :
    (fileInTree tree undet xul = true → locateXul isNT tree undet xul = .ok (undet ++ [xul]))
    ∧ (fileInTree tree undet xul = false → isNT = true →
        locateXul isNT tree undet xul
          = (match findInWalk tree xul with
             | some p => Except.ok p
             | none => Except.error ()))
    ∧ (fileInTree tree undet xul = false → isNT = false →
        locateXul isNT tree undet xul = .error ()) := by
  refine ⟨?_, ?_, ?_⟩
  · intro h
    rw [locateXul, if_pos h]
  · intro h hnt
    subst hnt
    rw [locateXul, if_neg (by simp [h]), if_pos rfl]
  · intro h hnt
    subst hnt
    rw [locateXul, if_neg (by simp [h])]
    simp

/-- C7 (witness): the amended theorem on the counterexample tree — direct
child present is returned; non-Windows with only a nested copy errors. -/
theorem c7_locate_amended_witness :
    locateXul false [([['u']], [['x']])] [['u']] ['x'] = .ok ([['u']] ++ [['x']])
    ∧ locateXul false [([['u']], []), ([['u'], ['s']], [['x']])] [['u']] ['x'] = .error () :=
  ⟨(c7_locate_amended false [([['u']], [['x']])] [['u']] ['x']).1 (by decide),
   (c7_locate_amended false [([['u']], []), ([['u'], ['s']], [['x']])] [['u']] ['x']).2.2
     (by decide) rfl⟩

end UGeck
